import Mathlib

/-!
Verification development for the idea-generation refinement loop
(`script.py`) and its model-gateway wrapper (`my_openai.py`).

Modelling conventions (shallow embedding):

* JSON values produced by the stdlib parser are modelled by the inductive
  type `Json`.  The result of `json.loads(clean_json_response(reply))` is
  abstracted as an `Option Json` supplied by the backend-reply oracle:
  `none` models a `json.JSONDecodeError`, `some j` a successful parse.
* Python runtime exceptions that the script does not catch
  (`AttributeError` from calling `.get` on a non-dict, `TypeError` from
  iterating a non-iterable) are modelled by `Except PyErr`; an
  `Except.error` escaping a modelled function corresponds to the Python
  exception propagating out of the corresponding source function.
* `IdeaItem` mirrors the `IdeaItem` class: `title`/`description` hold the
  values `dict.get` returned (arbitrary JSON values, as in Python), and
  `rating` is `Option Json` (`none` models the initial `None`).
* Mutation of `IdeaItem.rating` is modelled by returning the updated list
  alongside the original return value.
* Python `str` values manipulated by `clean_json_response` are Lean
  `String`s; `startswith`, `endswith`, slicing and `strip` are modelled
  character-list-wise by the `py...` helpers below.
* The backend (`OpenAIClient.query` call sites inside `generate_ideas`)
  is modelled as an oracle `replies : Nat → Option Json` giving the parse
  outcome of the text returned by the n-th `query` call of the run.
-/

inductive Json where
  | null : Json
  | bool (b : Bool) : Json
  | str (s : String) : Json
  | num (n : Int) : Json
  | arr (elems : List Json) : Json
  | obj (entries : List (String × Json)) : Json

/-- Uncaught Python runtime exceptions relevant to `script.py`. -/
inductive PyErr where
  | attributeError : PyErr
  | typeError : PyErr

/-- The `IdeaItem` class of `script.py` (title, description, optional rating). -/
structure IdeaItem where
  title : Json
  description : Json
  rating : Option Json

/-- Assignment `idea.rating = r` on an (immutable model of an) `IdeaItem`. -/
def setRating (i : IdeaItem) (r : Option Json) : IdeaItem :=
  IdeaItem.mk i.title i.description r

/-- Python iteration `for x in j`: lists yield their elements, strings yield
their characters (as one-character strings), dicts yield their keys; other
values raise `TypeError`. -/
def pyIter : Json → Except PyErr (List Json)
  | Json.arr xs => Except.ok xs
  | Json.str s => Except.ok (s.data.map (fun c => Json.str (String.mk [c])))
  | Json.obj kvs => Except.ok (kvs.map (fun kv => Json.str kv.1))
  | _ => Except.error PyErr.typeError

/-- Python `d.get(key, dflt)`: keyed lookup on a dict, `AttributeError` on a
non-dict receiver. -/
def dictGet : Json → String → Json → Except PyErr Json
  | Json.obj kvs, key, dflt => Except.ok ((List.lookup key kvs).getD dflt)
  | _, _, _ => Except.error PyErr.attributeError

/-- Python `rating == "Good enough"`-style comparison of a JSON value with a
string literal (false rather than an error on non-strings). -/
def pyEqStr (j : Json) (s : String) : Bool :=
  match j with
  | Json.str t => t == s
  | _ => false

/-- The same comparison applied to an `Optional` value (`None == s` is false). -/
def optEqStr (j : Option Json) (s : String) : Bool :=
  match j with
  | some v => pyEqStr v s
  | none => false

/-- `idea.rating = "Needs improvement"` applied to an item. -/
def rateNI (i : IdeaItem) : IdeaItem := setRating i (some (Json.str ("Needs improvement")))

/-- Body of the `for idea_dict in json_ideas` loop of `parse_ideas`
(`script.py` lines 38-43) for one element. -/
def parseOne (d : Json) : Except PyErr IdeaItem :=
  match dictGet d ("title") (Json.str ("")) with
  | Except.error e => Except.error e
  | Except.ok t =>
    match dictGet d ("description") (Json.str ("")) with
    | Except.error e => Except.error e
    | Except.ok descr => Except.ok (IdeaItem.mk t descr none)

/-- The accumulation loop of `parse_ideas` over the already-obtained iterator
elements. -/
def parseLoop : List Json → Except PyErr (List IdeaItem)
  | [] => Except.ok []
  | d :: ds =>
    match parseOne d with
    | Except.error e => Except.error e
    | Except.ok i =>
      match parseLoop ds with
      | Except.error e => Except.error e
      | Except.ok rest => Except.ok (i :: rest)

/-- `parse_ideas` (`script.py` lines 22-43), applied to an arbitrary
`json.loads` result (Python iterates whatever value it received). -/
def parse_ideas (json_ideas : Json) : Except PyErr (List IdeaItem) :=
  match pyIter json_ideas with
  | Except.error e => Except.error e
  | Except.ok elems => parseLoop elems

/-- `ideas_to_json` (`script.py` lines 45-55): the list of
title/description dicts. -/
def ideas_to_json (ideas : List IdeaItem) : List Json :=
  ideas.map (fun idea => Json.obj [(("title"), idea.title), (("description"), idea.description)])

/-- The `for idea_item, rating_obj in zip(ideas, ratings_data)` loop of
`evaluate_ideas` (`script.py` lines 101-115): returns the boolean verdicts
and the rating-updated items of the zipped prefix. -/
def evalLoop : List (IdeaItem × Json) → Except PyErr (List Bool × List IdeaItem)
  | [] => Except.ok ([], [])
  | (idea, ratingObj) :: rest =>
    match dictGet ratingObj ("rating") (Json.str ("Needs improvement")) with
    | Except.error e => Except.error e
    | Except.ok rating =>
      match evalLoop rest with
      | Except.error e => Except.error e
      | Except.ok (bs, its) =>
        Except.ok (pyEqStr rating ("Good enough") :: bs, setRating idea (some rating) :: its)

/-- `evaluate_ideas` (`script.py` lines 57-117).  `parsed` abstracts
`json.loads(clean_json_response(evaluation_response))`: `none` is a
`json.JSONDecodeError` (caught: all items marked "Needs improvement" and an
all-false list returned), `some j` a successful parse (processed by the zip
loop; wrong-shaped values raise).  The second component of the result is the
post-call state of the mutable input list. -/
def evaluate_ideas (ideas : List IdeaItem) (parsed : Option Json) :
    Except PyErr (List Bool × List IdeaItem) :=
  match parsed with
  | none =>
    Except.ok (List.replicate ideas.length false, ideas.map rateNI)
  | some ratingsData =>
    match pyIter ratingsData with
    | Except.error e => Except.error e
    | Except.ok objs =>
      match evalLoop (ideas.zip objs) with
      | Except.error e => Except.error e
      | Except.ok (bs, updatedPre) => Except.ok (bs, updatedPre ++ ideas.drop objs.length)

/-- Python `s.startswith(p)` on character lists. -/
def chStarts : List Char → List Char → Bool
  | [], _ => true
  | _ :: _, [] => false
  | p :: ps, c :: cs => p == c && chStarts ps cs

/-- Python `s.startswith(p)`. -/
def pyStartswith (s p : String) : Bool := chStarts p.data s.data

/-- Python `s.endswith(p)`. -/
def pyEndswith (s p : String) : Bool := chStarts p.data.reverse s.data.reverse

/-- Python slice `s[n:]`. -/
def pyDrop (s : String) (n : Nat) : String := String.mk (s.data.drop n)

/-- Python slice `s[:-n]` (for `n ≤ len(s)`; clamps at the empty string like
Python does). -/
def pyDropRight (s : String) (n : Nat) : String := String.mk (s.data.take (s.data.length - n))

/-- Python `s.strip()`: remove leading and trailing whitespace. -/
def pyStrip (s : String) : String :=
  String.mk (((s.data.dropWhile Char.isWhitespace).reverse.dropWhile Char.isWhitespace).reverse)

/-- `clean_json_response` (`script.py` lines 119-133). -/
def clean_json_response (response : String) : String :=
  if pyStartswith response ("```json") && pyEndswith response ("```") then
    pyStrip (pyDropRight (pyDrop response 7) 3)
  else if pyStartswith response ("```") && pyEndswith response ("```") then
    pyStrip (pyDropRight (pyDrop response 3) 3)
  else response

/-- The error raised by `OpenAIClient.query` (`my_openai.py` line 49) when the
backend yields no content; the spec's `BackendError`. -/
inductive BackendError where
  | noContent : BackendError

/-- Content handling of `OpenAIClient.query` (`my_openai.py` lines 21-50):
`response` is `completion.choices[0].message.content` (absent content is
`none`); the reply is returned unless it is `None`. -/
def OpenAIClient.query (response : Option String) : Except BackendError String :=
  match response with
  | none => Except.error BackendError.noContent
  | some s => Except.ok s

/-- Loop state of `generate_ideas` (`script.py` lines 165-243): the
`good_enough_ideas` list, the `needs_improvement_ideas` list, and the number
of `openai_client.query` calls made so far (index into the reply oracle). -/
structure LoopSt where
  good : List IdeaItem
  pending : List IdeaItem
  qc : Nat

/-- `max_attempts` (`script.py` line 165). -/
def max_attempts : Nat := 5

/-- State at entry of the `while` loop: both lists empty, no query made. -/
def initState : LoopSt := LoopSt.mk [] [] 0

/-- Step 1 of an iteration (`script.py` lines 176-186): generate the initial
ideas when both lists are empty.  `Sum.inl` is the `continue` taken on a
`json.JSONDecodeError` (`none` reply); `Sum.inr` falls through to step 2. -/
def step1 (replies : Nat → Option Json) (s : LoopSt) : Except PyErr (LoopSt ⊕ LoopSt) :=
  if s.good.isEmpty && s.pending.isEmpty then
    match replies s.qc with
    | none => Except.ok (Sum.inl (LoopSt.mk s.good s.pending (s.qc + 1)))
    | some j =>
      match parse_ideas j with
      | Except.error e => Except.error e
      | Except.ok items =>
        Except.ok (Sum.inr (LoopSt.mk s.good (s.pending ++ items) (s.qc + 1)))
  else Except.ok (Sum.inr s)

/-- The partition after evaluation (`script.py` lines 193-202), acting on the
rating-updated `needs_improvement_ideas` list (`updated`) and the verdicts
(`results`, never longer than `updated`): verdict-true items are appended to
`good_enough_ideas`, verdict-false items get rating "Needs improvement", and
the pending list is refiltered to the items rated "Needs improvement". -/
def partitionIdeas (good updated : List IdeaItem) (results : List Bool) :
    List IdeaItem × List IdeaItem :=
  let moved := (updated.zip results).filterMap (fun ib => if ib.2 then some ib.1 else none)
  let marked := (updated.zip results).map (fun ib => if ib.2 then ib.1 else rateNI ib.1)
    ++ updated.drop results.length
  (good ++ moved, marked.filter (fun i => optEqStr i.rating ("Needs improvement")))

/-- Step 2 of an iteration (`script.py` lines 188-202): evaluate the pending
ideas (one query) and partition them by verdict. -/
def step2 (replies : Nat → Option Json) (s : LoopSt) : Except PyErr LoopSt :=
  if s.pending.isEmpty then Except.ok s
  else
    match evaluate_ideas s.pending (replies s.qc) with
    | Except.error e => Except.error e
    | Except.ok (results, updated) =>
      let gp := partitionIdeas s.good updated results
      Except.ok (LoopSt.mk gp.1 gp.2 (s.qc + 1))

/-- Step 3 of an iteration (`script.py` lines 204-235): improve the remaining
pending ideas (one query); a parsed reply replaces the pending list wholesale
(`Sum.inr`), a `json.JSONDecodeError` takes the `continue` (`Sum.inl`). -/
def step3 (replies : Nat → Option Json) (s : LoopSt) : Except PyErr (LoopSt ⊕ LoopSt) :=
  if s.pending.isEmpty then Except.ok (Sum.inr s)
  else
    match replies s.qc with
    | none => Except.ok (Sum.inl (LoopSt.mk s.good s.pending (s.qc + 1)))
    | some j =>
      match parse_ideas j with
      | Except.error e => Except.error e
      | Except.ok improved =>
        Except.ok (Sum.inr (LoopSt.mk s.good improved (s.qc + 1)))

/-- One full iteration of the `while` loop of `generate_ideas` (`script.py`
lines 172-240).  `Sum.inl` is the state at the next loop head, `Sum.inr` the
early convergence return of `good_enough_ideas` (line 240), `Except.error` an
uncaught Python exception. -/
def loopIter (replies : Nat → Option Json) (s : LoopSt) :
    Except PyErr (LoopSt ⊕ List IdeaItem) :=
  match step1 replies s with
  | Except.error e => Except.error e
  | Except.ok (Sum.inl sc) => Except.ok (Sum.inl sc)
  | Except.ok (Sum.inr s1) =>
    match step2 replies s1 with
    | Except.error e => Except.error e
    | Except.ok s2 =>
      match step3 replies s2 with
      | Except.error e => Except.error e
      | Except.ok (Sum.inl sc) => Except.ok (Sum.inl sc)
      | Except.ok (Sum.inr s3) =>
        if s3.pending.isEmpty then Except.ok (Sum.inr s3.good) else Except.ok (Sum.inl s3)

/-- The bounded `while attempts < max_attempts` loop, with the remaining
attempt budget as fuel; returns the result together with the number of
iterations executed (the final value of `attempts` minus the initial one).
Fuel exhaustion is the fall-through return at line 243
(`good_enough_ideas + needs_improvement_ideas`). -/
def runLoop (replies : Nat → Option Json) : Nat → LoopSt → Except PyErr (List IdeaItem × Nat)
  | 0, s => Except.ok (s.good ++ s.pending, 0)
  | n + 1, s =>
    match loopIter replies s with
    | Except.error e => Except.error e
    | Except.ok (Sum.inr r) => Except.ok (r, 1)
    | Except.ok (Sum.inl s') =>
      match runLoop replies n s' with
      | Except.error e => Except.error e
      | Except.ok (r, c) => Except.ok (r, c + 1)

/-- `generate_ideas` (`script.py` lines 135-243) as a function of the
backend-reply oracle. -/
def generate_ideas (replies : Nat → Option Json) : Except PyErr (List IdeaItem) :=
  match runLoop replies max_attempts initState with
  | Except.error e => Except.error e
  | Except.ok (r, _) => Except.ok r

/-- `n` successive loop iterations from a state, ignoring the attempt budget:
`Sum.inl` = still looping after `n` iterations, `Sum.inr` = converged
meanwhile.  Used to express runs in which the pending list never empties. -/
def stepN (replies : Nat → Option Json) : Nat → LoopSt → Except PyErr (LoopSt ⊕ List IdeaItem)
  | 0, s => Except.ok (Sum.inl s)
  | n + 1, s =>
    match loopIter replies s with
    | Except.error e => Except.error e
    | Except.ok (Sum.inr r) => Except.ok (Sum.inr r)
    | Except.ok (Sum.inl s') => stepN replies n s'

/-- Invariant of the working set: accepted items carry the rating
"Good enough"; pending items never do (they are fresh, i.e. unrated, or
rated "Needs improvement"). -/
def GoodInv (s : LoopSt) : Prop :=
  (∀ x ∈ s.good, x.rating = some (Json.str ("Good enough"))) ∧
  (∀ x ∈ s.pending, x.rating ≠ some (Json.str ("Good enough")))

/-- An `IdeaItem` as `parse_ideas` builds it, with the rating cleared:
used to state the encode/decode round trip. -/
def resetRating (i : IdeaItem) : IdeaItem := IdeaItem.mk i.title i.description none

/-- `idea.rating = "Good enough"` applied to an item. -/
def ratedGood (i : IdeaItem) : IdeaItem := setRating i (some (Json.str ("Good enough")))

/-- Concrete sample items and batches used as witnesses. -/
def itemA : IdeaItem := IdeaItem.mk (Json.str ("a")) (Json.str ("da")) none

def itemB : IdeaItem := IdeaItem.mk (Json.str ("b")) (Json.str ("db")) none

def ideas2 : List IdeaItem := [itemA, itemB]

/-- A single parsed verdict object rating an idea "Good enough". -/
def goodVerdict : Json := Json.obj [(("rating"), Json.str ("Good enough"))]

/-- Reply oracle: the generation reply parses to one well-formed idea object,
the evaluation reply to a JSON array of strings (valid JSON, wrong shape). -/
def wrongShapeReplies : Nat → Option Json := fun n =>
  match n with
  | 0 => some (Json.arr [Json.obj [(("title"), Json.str ("t")), (("description"), Json.str ("d"))]])
  | 1 => some (Json.arr [Json.str ("Good enough")])
  | _ => none

/-- Reply oracle on which every reply fails to parse as JSON. -/
def allNoneReplies : Nat → Option Json := fun _ => none

/-- Loop state with one accepted and one pending idea, used as a witness. -/
def stWitness : LoopSt := LoopSt.mk [ratedGood itemA] [itemB] 0

/-- Reply oracle: the evaluation reply is unparsable, the improvement reply
parses to the empty JSON array. -/
def emptyImproveReplies : Nat → Option Json := fun n =>
  match n with
  | 1 => some (Json.arr [])
  | _ => none

lemma chStarts_append_true (p q s : List Char) (h : chStarts (p ++ q) s = true) :
    chStarts p s = true := by
  induction p generalizing s with
  | nil => rfl
  | cons c cs ih =>
    cases s with
    | nil => simp [chStarts] at h
    | cons d ds =>
      simp only [List.cons_append, chStarts, Bool.and_eq_true] at h ⊢
      exact ⟨h.1, ih ds h.2⟩

lemma evalLoop_ok_length (ps : List (IdeaItem × Json)) (bs : List Bool) (its : List IdeaItem)
    (h : evalLoop ps = Except.ok (bs, its)) : bs.length = ps.length ∧ its.length = ps.length := by
  induction ps generalizing bs its with
  | nil =>
    simp [evalLoop] at h
    simp [← h.1, ← h.2]
  | cons p rest ih =>
    obtain ⟨idea, robj⟩ := p
    simp only [evalLoop] at h
    cases hg : dictGet robj ("rating") (Json.str ("Needs improvement")) with
    | error e => rw [hg] at h; simp at h
    | ok rating =>
      rw [hg] at h
      cases hrest : evalLoop rest with
      | error e => rw [hrest] at h; simp at h
      | ok pr =>
        obtain ⟨bs', its'⟩ := pr
        rw [hrest] at h
        simp only [Except.ok.injEq, Prod.mk.injEq] at h
        obtain ⟨hb, hi⟩ := h
        have := ih bs' its' hrest
        simp [← hb, ← hi, this.1, this.2]

lemma parseLoop_ideas_to_json (b : List IdeaItem) :
    parseLoop (ideas_to_json b) = Except.ok (b.map resetRating) := by
  induction b with
  | nil => rfl
  | cons i bs ih =>
    simp only [ideas_to_json, List.map_cons] at ih ⊢
    simp only [parseLoop]
    have h1 : parseOne (Json.obj [(("title"), i.title), (("description"), i.description)]) =
        Except.ok (IdeaItem.mk i.title i.description none) := rfl
    rw [h1, ih]
    rfl

lemma chStarts_self_append (p q : List Char) : chStarts p (p ++ q) = true := by
  induction p with
  | nil => rfl
  | cons c cs ih => simp [chStarts, ih]

lemma sliceMid (pre mid suf : String) (n m : Nat) (hn : n = pre.data.length)
    (hm : m = suf.data.length) :
    pyDropRight (pyDrop (pre ++ mid ++ suf) n) m = mid := by
  subst hn; subst hm
  simp only [pyDrop, pyDropRight, String.data_append, List.append_assoc]
  rw [List.drop_left]
  simp only [List.length_append, Nat.add_sub_cancel]
  rw [List.take_left]

lemma pyStartswith_self_append (a b : String) : pyStartswith (a ++ b) a = true := by
  simp only [pyStartswith, String.data_append]
  exact chStarts_self_append _ _

lemma pyEndswith_append_self (a b : String) : pyEndswith (a ++ b) b = true := by
  simp only [pyEndswith, String.data_append, List.reverse_append]
  exact chStarts_self_append _ _

lemma zip_map_replicate (p : List IdeaItem) (f : IdeaItem → IdeaItem) :
    (p.map f).zip (List.replicate p.length false) = p.map (fun x => (f x, false)) := by
  induction p with
  | nil => rfl
  | cons x xs ih => simp [List.replicate_succ, ih]

lemma partition_all_false (g p : List IdeaItem) :
    partitionIdeas g (p.map rateNI) (List.replicate p.length false) = (g, p.map rateNI) := by
  unfold partitionIdeas
  rw [zip_map_replicate]
  simp only [List.filterMap_map, List.map_map, Function.comp_def, List.length_replicate]
  simp
  have hdrop : List.drop p.length (List.map rateNI p) = [] := List.drop_eq_nil_of_le (by simp)
  have hidem : (fun x => rateNI (rateNI x)) = rateNI := funext (fun x => rfl)
  rw [hdrop, hidem]
  simp only [List.filter_nil, List.append_nil]
  apply List.filter_eq_self.mpr
  intro a ha
  obtain ⟨x, _, rfl⟩ := List.mem_map.mp ha
  rfl


lemma stepN_inl_runLoop (replies : Nat → Option Json) :
    ∀ (n : Nat) (s t : LoopSt), stepN replies n s = Except.ok (Sum.inl t) →
      runLoop replies n s = Except.ok (t.good ++ t.pending, n) := by
  intro n
  induction n with
  | zero =>
    intro s t h
    simp only [stepN, Except.ok.injEq, Sum.inl.injEq] at h
    subst h
    rfl
  | succ n ih =>
    intro s t h
    simp only [stepN] at h
    cases hit : loopIter replies s with
    | error e => rw [hit] at h; simp at h
    | ok v =>
      rw [hit] at h
      cases v with
      | inr r => simp at h
      | inl s' =>
        simp only [runLoop, hit]
        rw [ih s' t h]

lemma runLoop_count_le (replies : Nat → Option Json) :
    ∀ (n : Nat) (s : LoopSt) (r : List IdeaItem) (c : Nat),
      runLoop replies n s = Except.ok (r, c) → c ≤ n := by
  intro n
  induction n with
  | zero =>
    intro s r c h
    simp only [runLoop, Except.ok.injEq, Prod.mk.injEq] at h
    omega
  | succ n ih =>
    intro s r c h
    simp only [runLoop] at h
    cases hit : loopIter replies s with
    | error e => rw [hit] at h; simp at h
    | ok v =>
      rw [hit] at h
      cases v with
      | inr res =>
        simp only [Except.ok.injEq, Prod.mk.injEq] at h
        omega
      | inl s' =>
        have h' : (match runLoop replies n s' with
            | Except.error e => Except.error e
            | Except.ok (r, c) => Except.ok (r, c + 1)) = Except.ok (r, c) := h
        cases hr : runLoop replies n s' with
        | error e => rw [hr] at h'; simp at h'
        | ok pr =>
          obtain ⟨r', c'⟩ := pr
          rw [hr] at h'
          simp only [Except.ok.injEq, Prod.mk.injEq] at h'
          have := ih s' r' c' hr
          omega


lemma optEqStr_eq_true {r : Option Json} {u : String} (h : optEqStr r u = true) :
    r = some (Json.str u) := by
  cases r with
  | none => simp [optEqStr] at h
  | some v =>
    cases v with
    | str t =>
      simp only [optEqStr, pyEqStr, beq_iff_eq] at h
      rw [h]
    | null => simp [optEqStr, pyEqStr] at h
    | bool b => simp [optEqStr, pyEqStr] at h
    | num m => simp [optEqStr, pyEqStr] at h
    | arr a => simp [optEqStr, pyEqStr] at h
    | obj o => simp [optEqStr, pyEqStr] at h

lemma ni_ne_good :
    some (Json.str ("Needs improvement")) ≠ some (Json.str ("Good enough")) := by
  intro h
  injection h with h1
  injection h1 with h2
  exact absurd h2 (by decide)

lemma parseOne_rating_none {d : Json} {i : IdeaItem} (h : parseOne d = Except.ok i) :
    i.rating = none := by
  unfold parseOne at h
  cases h1 : dictGet d ("title") (Json.str ("")) with
  | error e => rw [h1] at h; simp at h
  | ok t =>
    rw [h1] at h
    cases h2 : dictGet d ("description") (Json.str ("")) with
    | error e => rw [h2] at h; simp at h
    | ok de =>
      rw [h2] at h
      simp only [Except.ok.injEq] at h
      rw [← h]

lemma parseLoop_rating_none : ∀ {ds : List Json} {l : List IdeaItem},
    parseLoop ds = Except.ok l → ∀ x ∈ l, x.rating = none := by
  intro ds
  induction ds with
  | nil =>
    intro l h x hx
    simp only [parseLoop, Except.ok.injEq] at h
    subst h
    simp at hx
  | cons d rest ih =>
    intro l h x hx
    simp only [parseLoop] at h
    cases h1 : parseOne d with
    | error e => rw [h1] at h; simp at h
    | ok i =>
      rw [h1] at h
      cases h2 : parseLoop rest with
      | error e => rw [h2] at h; simp at h
      | ok l' =>
        rw [h2] at h
        simp only [Except.ok.injEq] at h
        subst h
        rcases List.mem_cons.mp hx with rfl | hmem
        · exact parseOne_rating_none h1
        · exact ih h2 x hmem

lemma parse_ideas_rating_none {j : Json} {l : List IdeaItem}
    (h : parse_ideas j = Except.ok l) : ∀ x ∈ l, x.rating = none := by
  unfold parse_ideas at h
  cases hp : pyIter j with
  | error e => rw [hp] at h; simp at h
  | ok elems =>
    rw [hp] at h
    exact parseLoop_rating_none h

lemma evalLoop_bools : ∀ {ps : List (IdeaItem × Json)} {bs : List Bool} {its : List IdeaItem},
    evalLoop ps = Except.ok (bs, its) →
    bs = its.map (fun i => optEqStr i.rating ("Good enough")) := by
  intro ps
  induction ps with
  | nil =>
    intro bs its h
    simp only [evalLoop, Except.ok.injEq, Prod.mk.injEq] at h
    simp [← h.1, ← h.2]
  | cons p rest ih =>
    intro bs its h
    obtain ⟨idea, robj⟩ := p
    simp only [evalLoop] at h
    cases h1 : dictGet robj ("rating") (Json.str ("Needs improvement")) with
    | error e => rw [h1] at h; simp at h
    | ok rating =>
      rw [h1] at h
      cases h2 : evalLoop rest with
      | error e => rw [h2] at h; simp at h
      | ok pr =>
        obtain ⟨bs', its'⟩ := pr
        rw [h2] at h
        simp only [Except.ok.injEq, Prod.mk.injEq] at h
        obtain ⟨hb, hi⟩ := h
        subst hb
        subst hi
        simp only [List.map_cons]
        rw [ih h2]
        rfl

lemma zip_append_left (xs ys : List IdeaItem) (bs : List Bool) (h : bs.length ≤ xs.length) :
    (xs ++ ys).zip bs = xs.zip bs := by
  induction xs generalizing bs with
  | nil =>
    have hb : bs = [] := List.eq_nil_of_length_eq_zero (Nat.le_zero.mp h)
    subst hb
    simp
  | cons x xs ih =>
    cases bs with
    | nil => simp
    | cons b bs' =>
      simp only [List.cons_append, List.zip_cons_cons]
      rw [ih bs' (by simpa using h)]

lemma zip_self_map (l : List IdeaItem) (f : IdeaItem → Bool) :
    l.zip (l.map f) = l.map (fun x => (x, f x)) := by
  induction l with
  | nil => rfl
  | cons x xs ih => simp [ih]

lemma partitionIdeas_inv (g its suffix : List IdeaItem)
    (hg : ∀ x ∈ g, x.rating = some (Json.str ("Good enough"))) :
    (∀ x ∈ g, x ∈ (partitionIdeas g (its ++ suffix)
        (its.map (fun i => optEqStr i.rating ("Good enough")))).1) ∧
    (∀ x ∈ (partitionIdeas g (its ++ suffix)
        (its.map (fun i => optEqStr i.rating ("Good enough")))).1,
      x.rating = some (Json.str ("Good enough"))) ∧
    (∀ x ∈ (partitionIdeas g (its ++ suffix)
        (its.map (fun i => optEqStr i.rating ("Good enough")))).2,
      x.rating ≠ some (Json.str ("Good enough"))) := by
  unfold partitionIdeas
  rw [zip_append_left its suffix _ (by simp), zip_self_map]
  refine ⟨fun x hx => List.mem_append_left _ hx, fun x hx => ?_, fun x hx => ?_⟩
  · rcases List.mem_append.mp hx with hx | hx
    · exact hg x hx
    · rw [List.filterMap_map] at hx
      obtain ⟨a, ha, hfa⟩ := List.mem_filterMap.mp hx
      simp only [Function.comp_def] at hfa
      by_cases hb : optEqStr a.rating ("Good enough") = true
      · rw [if_pos hb] at hfa
        injection hfa with hfa
        subst hfa
        exact optEqStr_eq_true hb
      · rw [if_neg hb] at hfa
        exact absurd hfa (by simp)
  · have hpred := (List.mem_filter.mp hx).2
    rw [optEqStr_eq_true hpred]
    exact ni_ne_good

lemma step1_inv (replies : Nat → Option Json) (s : LoopSt) (out : LoopSt ⊕ LoopSt)
    (hinv : GoodInv s) (h : step1 replies s = Except.ok out) :
    GoodInv (Sum.elim id id out) ∧ (Sum.elim id id out).good = s.good := by
  unfold step1 at h
  by_cases hc : (s.good.isEmpty && s.pending.isEmpty) = true
  · rw [if_pos hc] at h
    cases hrep : replies s.qc with
    | none =>
      rw [hrep] at h
      simp only [Except.ok.injEq] at h
      subst h
      exact ⟨hinv, rfl⟩
    | some j =>
      rw [hrep] at h
      dsimp only at h
      cases hpj : parse_ideas j with
      | error e => rw [hpj] at h; simp at h
      | ok items =>
        rw [hpj] at h
        simp only [Except.ok.injEq] at h
        subst h
        refine ⟨⟨hinv.1, fun x hx => ?_⟩, rfl⟩
        rcases List.mem_append.mp hx with hx | hx
        · exact hinv.2 x hx
        · rw [parse_ideas_rating_none hpj x hx]
          simp
  · rw [if_neg hc] at h
    simp only [Except.ok.injEq] at h
    subst h
    exact ⟨hinv, rfl⟩

lemma step2_inv (replies : Nat → Option Json) (s s2 : LoopSt) (hinv : GoodInv s)
    (h : step2 replies s = Except.ok s2) :
    GoodInv s2 ∧ ∀ x ∈ s.good, x ∈ s2.good := by
  unfold step2 at h
  by_cases hemp : s.pending.isEmpty
  · rw [if_pos hemp] at h
    simp only [Except.ok.injEq] at h
    subst h
    exact ⟨hinv, fun x hx => hx⟩
  · rw [if_neg hemp] at h
    cases hrep : replies s.qc with
    | none =>
      rw [hrep] at h
      have hev : evaluate_ideas s.pending none =
          Except.ok (List.replicate s.pending.length false, s.pending.map rateNI) := rfl
      rw [hev] at h
      simp only at h
      rw [partition_all_false] at h
      simp only [Except.ok.injEq] at h
      subst h
      refine ⟨⟨hinv.1, fun x hx => ?_⟩, fun x hx => hx⟩
      obtain ⟨i, _, rfl⟩ := List.mem_map.mp hx
      exact ni_ne_good
    | some j =>
      rw [hrep] at h
      simp only [evaluate_ideas] at h
      cases hpy : pyIter j with
      | error e => rw [hpy] at h; simp at h
      | ok objs =>
        rw [hpy] at h
        dsimp only at h
        cases hel : evalLoop (s.pending.zip objs) with
        | error e => rw [hel] at h; simp at h
        | ok pr =>
          obtain ⟨bs, its⟩ := pr
          rw [hel] at h
          simp only [Except.ok.injEq] at h
          subst h
          have hbs := evalLoop_bools hel
          subst hbs
          have hpart := partitionIdeas_inv s.good its (s.pending.drop objs.length) hinv.1
          exact ⟨⟨hpart.2.1, hpart.2.2⟩, hpart.1⟩

lemma step3_inv (replies : Nat → Option Json) (s : LoopSt) (out : LoopSt ⊕ LoopSt)
    (hinv : GoodInv s) (h : step3 replies s = Except.ok out) :
    GoodInv (Sum.elim id id out) ∧ (Sum.elim id id out).good = s.good := by
  unfold step3 at h
  by_cases hemp : s.pending.isEmpty
  · rw [if_pos hemp] at h
    simp only [Except.ok.injEq] at h
    subst h
    exact ⟨hinv, rfl⟩
  · rw [if_neg hemp] at h
    cases hrep : replies s.qc with
    | none =>
      rw [hrep] at h
      simp only [Except.ok.injEq] at h
      subst h
      exact ⟨hinv, rfl⟩
    | some j =>
      rw [hrep] at h
      dsimp only at h
      cases hpj : parse_ideas j with
      | error e => rw [hpj] at h; simp at h
      | ok improved =>
        rw [hpj] at h
        simp only [Except.ok.injEq] at h
        subst h
        refine ⟨⟨hinv.1, fun x hx => ?_⟩, rfl⟩
        rw [parse_ideas_rating_none hpj x hx]
        simp

lemma loopIter_inv (replies : Nat → Option Json) (s : LoopSt) (hinv : GoodInv s) :
    (∀ s', loopIter replies s = Except.ok (Sum.inl s') →
      GoodInv s' ∧ ∀ x ∈ s.good, x ∈ s'.good) ∧
    (∀ r, loopIter replies s = Except.ok (Sum.inr r) →
      (∀ x ∈ s.good, x ∈ r) ∧ ∀ x ∈ r, x.rating = some (Json.str ("Good enough"))) := by
  have main : ∀ res, loopIter replies s = Except.ok res →
      (∀ s', res = Sum.inl s' → GoodInv s' ∧ ∀ x ∈ s.good, x ∈ s'.good) ∧
      (∀ r, res = Sum.inr r →
        (∀ x ∈ s.good, x ∈ r) ∧ ∀ x ∈ r, x.rating = some (Json.str ("Good enough"))) := by
    intro res h
    unfold loopIter at h
    cases h1 : step1 replies s with
    | error e => rw [h1] at h; simp at h
    | ok o1 =>
      rw [h1] at h
      cases o1 with
      | inl sc =>
        simp only [Except.ok.injEq] at h
        subst h
        have hi1 := step1_inv replies s _ hinv h1
        have hg1 : sc.good = s.good := hi1.2
        refine ⟨fun s' hs' => ?_, fun r hr => by simp at hr⟩
        injection hs' with h'
        subst h'
        exact ⟨hi1.1, fun x hx => by rw [hg1]; exact hx⟩
      | inr s1 =>
        try dsimp only at h
        have hi1 := step1_inv replies s _ hinv h1
        have hg1 : s1.good = s.good := hi1.2
        have hinv1 : GoodInv s1 := hi1.1
        cases h2 : step2 replies s1 with
        | error e => rw [h2] at h; simp at h
        | ok s2 =>
          rw [h2] at h
          try dsimp only at h
          have hi2 := step2_inv replies s1 s2 hinv1 h2
          cases h3 : step3 replies s2 with
          | error e => rw [h3] at h; simp at h
          | ok o3 =>
            rw [h3] at h
            try dsimp only at h
            have hi3 := step3_inv replies s2 _ hi2.1 h3
            cases o3 with
            | inl sc =>
              simp only [Except.ok.injEq] at h
              subst h
              have hg3 : sc.good = s2.good := hi3.2
              refine ⟨fun s' hs' => ?_, fun r hr => by simp at hr⟩
              injection hs' with h'
              subst h'
              refine ⟨hi3.1, fun x hx => ?_⟩
              rw [hg3]
              exact hi2.2 x (by rw [hg1]; exact hx)
            | inr s3 =>
              try dsimp only at h
              have hg3 : s3.good = s2.good := hi3.2
              have hinv3 : GoodInv s3 := hi3.1
              by_cases hpe : s3.pending.isEmpty
              · rw [if_pos hpe] at h
                simp only [Except.ok.injEq] at h
                subst h
                refine ⟨fun s' hs' => by simp at hs', fun r hr => ?_⟩
                injection hr with h'
                subst h'
                refine ⟨fun x hx => ?_, fun x hx => hinv3.1 x hx⟩
                rw [hg3]
                exact hi2.2 x (by rw [hg1]; exact hx)
              · rw [if_neg hpe] at h
                simp only [Except.ok.injEq] at h
                subst h
                refine ⟨fun s' hs' => ?_, fun r hr => by simp at hr⟩
                injection hs' with h'
                subst h'
                refine ⟨hinv3, fun x hx => ?_⟩
                rw [hg3]
                exact hi2.2 x (by rw [hg1]; exact hx)
  exact ⟨fun s' h => (main _ h).1 s' rfl, fun r h => (main _ h).2 r rfl⟩

/-- Claim C1, counterexample: with a batch of two ideas and a parsed verdict
array of one object, `evaluate_ideas` returns a boolean list of length 1, not
length 2 — the `zip` in the source truncates, so the output length does not
equal the input batch length and the unmatched trailing item is left
untouched rather than being treated as fail. -/
theorem c1_counterexample :
    evaluate_ideas ideas2 (some (Json.arr [goodVerdict])) =
      Except.ok ([true], [ratedGood itemA, itemB]) ∧
    ([true] : List Bool).length ≠ ideas2.length :=
  ⟨rfl, by decide⟩

/-- Claim C1, amended: when the evaluation reply parses as a JSON array and
the call returns normally, the boolean list returned by `evaluate_ideas` has
length `min (batch length) (verdict array length)` — trailing batch items
without a corresponding verdict entry get no verdict at all (they are not
treated as fail) — while the item list keeps the batch length. -/
theorem c1_truncated_length (ideas : List IdeaItem) (objs : List Json) (bs : List Bool)
    (upd : List IdeaItem)
    (h : evaluate_ideas ideas (some (Json.arr objs)) = Except.ok (bs, upd)) :
    bs.length = min ideas.length objs.length ∧ upd.length = ideas.length := by
  simp only [evaluate_ideas, pyIter] at h
  cases he : evalLoop (ideas.zip objs) with
  | error e => rw [he] at h; simp at h
  | ok pr =>
    obtain ⟨bs', its⟩ := pr
    rw [he] at h
    simp only [Except.ok.injEq, Prod.mk.injEq] at h
    obtain ⟨hb, hu⟩ := h
    have hlen := evalLoop_ok_length _ _ _ he
    have hz : (ideas.zip objs).length = min ideas.length objs.length := List.length_zip _ _
    constructor
    · rw [← hb, hlen.1, hz]
    · rw [← hu]
      simp only [List.length_append, List.length_drop, hlen.2, hz]
      omega

/-- Witness for `c1_truncated_length` at a concrete two-item batch and a
one-element verdict array. -/
theorem c1_witness :
    ([true] : List Bool).length = min ideas2.length [goodVerdict].length ∧
    ([ratedGood itemA, itemB] : List IdeaItem).length = ideas2.length :=
  c1_truncated_length ideas2 [goodVerdict] [true] [ratedGood itemA, itemB] rfl

/-- Claim C2, counterexample: a run whose generation reply parses to one
well-formed idea object and whose evaluation reply is valid JSON but an array
of strings terminates `generate_ideas` with an uncaught `AttributeError`
(modelled as `Except.error`): parse failures other than `json.JSONDecodeError`
are not contained, so `BackendError` is not the only exception that can
escape the refinement loop. -/
theorem c2_counterexample :
    generate_ideas wrongShapeReplies = Except.error PyErr.attributeError := rfl

/-- Claim C2, amended: only `json.JSONDecodeError` is contained by the
components; an evaluation reply that is valid JSON but an array whose first
element is a string makes `evaluate_ideas` raise `AttributeError`
(`rating_obj.get` on a non-dict), which no caller catches. -/
theorem c2_wrong_shape_raises (ideas : List IdeaItem) (t : String) (rest : List Json)
    (h : ideas ≠ []) :
    evaluate_ideas ideas (some (Json.arr (Json.str t :: rest))) =
      Except.error PyErr.attributeError := by
  cases ideas with
  | nil => exact absurd rfl h
  | cons i tl => rfl

/-- Witness for `c2_wrong_shape_raises` at a concrete two-item batch. -/
theorem c2_witness : ideas2 ≠ [] ∧
    evaluate_ideas ideas2 (some (Json.arr [Json.str ("nope")])) =
      Except.error PyErr.attributeError :=
  ⟨List.cons_ne_nil _ _, c2_wrong_shape_raises ideas2 ("nope") [] (List.cons_ne_nil _ _)⟩

/-- Claim C3: the loop never compares the improvement reply's size with the
pending batch.  From any state with a non-empty pending list, when the
evaluation reply fails to parse (everything stays pending) and the
improvement reply parses to any list `l`, the pending list is replaced
wholesale by `l`; in particular, for the empty array the loop returns
immediately with only the accepted items, silently dropping the pending
ones. -/
theorem c3_wholesale_replacement (replies : Nat → Option Json) (s : LoopSt) (j : Json)
    (l : List IdeaItem) (hp : s.pending ≠ []) (he : replies s.qc = none)
    (hi : replies (s.qc + 1) = some j) (hl : parse_ideas j = Except.ok l) :
    loopIter replies s =
      Except.ok (if l.isEmpty then Sum.inr s.good else Sum.inl (LoopSt.mk s.good l (s.qc + 2))) := by
  obtain ⟨g, p, q⟩ := s
  simp only at hp he hi ⊢
  cases p with
  | nil => exact absurd rfl hp
  | cons x xs =>
    have h1 : step1 replies (LoopSt.mk g (x :: xs) q) =
        Except.ok (Sum.inr (LoopSt.mk g (x :: xs) q)) := by
      unfold step1
      simp
    have h2 : step2 replies (LoopSt.mk g (x :: xs) q) =
        Except.ok (LoopSt.mk g ((x :: xs).map rateNI) (q + 1)) := by
      unfold step2
      simp only [List.isEmpty_cons, Bool.false_eq_true, if_false]
      rw [he]
      show Except.ok (LoopSt.mk
        (partitionIdeas g ((x :: xs).map rateNI) (List.replicate (x :: xs).length false)).1
        (partitionIdeas g ((x :: xs).map rateNI) (List.replicate (x :: xs).length false)).2
        (q + 1)) = _
      rw [partition_all_false]
    have h3 : step3 replies (LoopSt.mk g ((x :: xs).map rateNI) (q + 1)) =
        Except.ok (Sum.inr (LoopSt.mk g l (q + 2))) := by
      unfold step3
      simp only [List.map_cons, List.isEmpty_cons, Bool.false_eq_true, if_false]
      rw [hi]
      show (match parse_ideas j with
        | Except.error e => Except.error e
        | Except.ok improved => Except.ok (Sum.inr (LoopSt.mk g improved (q + 1 + 1)))) = _
      rw [hl]
    unfold loopIter
    rw [h1]
    dsimp only
    rw [h2]
    dsimp only
    rw [h3]
    dsimp only
    cases l with
    | nil => simp
    | cons y ys => simp

/-- Witness for `c3_wholesale_replacement`: one accepted and one pending
idea, unparsable evaluation reply, improvement reply `[]` — the iteration
returns only the accepted item. -/
theorem c3_witness :
    loopIter emptyImproveReplies stWitness = Except.ok (Sum.inr [ratedGood itemA]) := by
  have h := c3_wholesale_replacement emptyImproveReplies stWitness (Json.arr [])
    [] (List.cons_ne_nil _ _) rfl rfl rfl
  exact h

/-- Claim C4, counterexample: `clean_json_response` does not treat all
language tags alike.  The tag `json` is stripped together with the fence
markers, while the tag `python` stays in the returned text; whichever way
"the fence markers and surrounding whitespace are stripped" is read, one of
the two evaluations contradicts the claimed uniform treatment of arbitrary
language tags. -/
theorem c4_counterexample :
    clean_json_response ("```json\nX\n```") = ("X") ∧
    clean_json_response ("```python\nX\n```") = ("python\nX") ∧
    (("X") : String) ≠ ("json\nX") ∧ (("python\nX") : String) ≠ ("X") :=
  ⟨by decide, by decide, by decide, by decide⟩

/-- Claim C4, amended: for a string fully wrapped in fences, the fence
markers and surrounding whitespace are stripped, and the literal tag `json`
right after the opening fence is stripped as well; any other language tag
remains part of the returned content.  A string not fully wrapped in fences
is returned unchanged (no error path). -/
theorem c4_fence_stripping (mid s : String) :
    (clean_json_response (("```json") ++ mid ++ ("```")) = pyStrip mid) ∧
    (pyStartswith (("```") ++ mid ++ ("```")) ("```json") = false →
      clean_json_response (("```") ++ mid ++ ("```")) = pyStrip mid) ∧
    (pyStartswith s ("```") = false ∨ pyEndswith s ("```") = false →
      clean_json_response s = s) := by
  refine ⟨?_, fun hnj => ?_, fun hno => ?_⟩
  · have h1 : pyStartswith (("```json") ++ mid ++ ("```")) ("```json") = true := by
      rw [String.append_assoc]
      exact pyStartswith_self_append _ _
    have h2 : pyEndswith (("```json") ++ mid ++ ("```")) ("```") = true :=
      pyEndswith_append_self _ _
    simp only [clean_json_response, h1, h2, Bool.and_self, if_true]
    rw [sliceMid (("```json")) mid (("```")) 7 3 rfl rfl]
  · have h2 : pyEndswith (("```") ++ mid ++ ("```")) ("```") = true :=
      pyEndswith_append_self _ _
    have h3 : pyStartswith (("```") ++ mid ++ ("```")) ("```") = true := by
      rw [String.append_assoc]
      exact pyStartswith_self_append _ _
    simp only [clean_json_response, hnj, h2, h3, Bool.false_and, Bool.and_self,
      Bool.false_eq_true, if_false, if_true]
    rw [sliceMid (("```")) mid (("```")) 3 3 rfl rfl]
  · cases hno with
    | inl hs =>
      have hj : pyStartswith s ("```json") = false := by
        cases hc : pyStartswith s ("```json") with
        | false => rfl
        | true =>
          exfalso
          have hsplit : ("```json").data = ("```").data ++ ("json").data := rfl
          have := chStarts_append_true (("```").data) (("json").data) s.data
            (by rw [← hsplit]; exact hc)
          rw [pyStartswith, this] at hs
          exact Bool.true_eq_false.mp hs
      simp [clean_json_response, hj, hs]
    | inr he =>
      simp [clean_json_response, he]

/-- Witness for `c4_fence_stripping` at concrete wrapped and unwrapped
strings. -/
theorem c4_witness :
    clean_json_response (("```json") ++ ("\nX\n") ++ ("```")) = pyStrip ("\nX\n") ∧
    pyStartswith (("```") ++ ("python\nX\n") ++ ("```")) ("```json") = false ∧
    clean_json_response (("```") ++ ("python\nX\n") ++ ("```")) = pyStrip ("python\nX\n") ∧
    clean_json_response ("hello") = ("hello") :=
  ⟨(c4_fence_stripping ("\nX\n") ("hello")).1,
   by decide,
   (c4_fence_stripping ("python\nX\n") ("hello")).2.1 (by decide),
   (c4_fence_stripping ("python\nX\n") ("hello")).2.2 (Or.inl (by decide))⟩

/-- Claim C5, counterexample: an empty backend reply is returned as-is by
`OpenAIClient.query` — it does not raise, contradicting the claim that
"no usable content" covers the empty reply. -/
theorem c5_counterexample : OpenAIClient.query (some ("")) = Except.ok ("") := rfl

/-- Claim C5, amended: `OpenAIClient.query` raises its backend error exactly
when the reply content is `None`; every present reply, the empty string
included, is returned unchanged. -/
theorem c5_query_none_only :
    (∀ s : String, OpenAIClient.query (some s) = Except.ok s) ∧
    OpenAIClient.query none = Except.error BackendError.noContent :=
  ⟨fun _ => rfl, rfl⟩

/-- Witness for `c5_query_none_only` at a concrete reply. -/
theorem c5_witness : OpenAIClient.query (some ("hi")) = Except.ok ("hi") :=
  c5_query_none_only.1 ("hi")

/-- Claim C6: for every non-empty batch, when the evaluation reply fails to
parse as JSON, `evaluate_ideas` does not raise: it returns an all-false list
whose length equals the batch length and sets every item's rating to
"Needs improvement". -/
theorem c6_eval_parse_failure (ideas : List IdeaItem) (_h : ideas ≠ []) :
    evaluate_ideas ideas none =
      Except.ok (List.replicate ideas.length false, ideas.map rateNI) ∧
    (List.replicate ideas.length false).length = ideas.length ∧
    (∀ b ∈ List.replicate ideas.length false, b = false) ∧
    ∀ x ∈ ideas.map rateNI, x.rating = some (Json.str ("Needs improvement")) := by
  refine ⟨rfl, List.length_replicate _ _, fun b hb => List.eq_of_mem_replicate hb, fun x hx => ?_⟩
  obtain ⟨i, _, rfl⟩ := List.mem_map.mp hx
  rfl

/-- Witness for `c6_eval_parse_failure` at a concrete two-item batch. -/
theorem c6_witness : ideas2 ≠ [] ∧ evaluate_ideas ideas2 none =
    Except.ok (List.replicate ideas2.length false, ideas2.map rateNI) :=
  ⟨List.cons_ne_nil _ _, (c6_eval_parse_failure ideas2 (List.cons_ne_nil _ _)).1⟩

/-- Claim C7: in a run where the pending list never empties — i.e. all
`max_attempts` iterations complete without converging or raising, expressed
as `stepN` still looping after `max_attempts` iterations — the loop executes
exactly `max_attempts = 5` iterations and then terminates normally, returning
the accepted list followed by the pending list. -/
theorem c7_budget_exhaustion (replies : Nat → Option Json) (t : LoopSt)
    (h : stepN replies max_attempts initState = Except.ok (Sum.inl t)) :
    runLoop replies max_attempts initState = Except.ok (t.good ++ t.pending, max_attempts) ∧
    generate_ideas replies = Except.ok (t.good ++ t.pending) := by
  have h1 := stepN_inl_runLoop replies max_attempts initState t h
  refine ⟨h1, ?_⟩
  unfold generate_ideas
  rw [h1]

/-- Witness for `c7_budget_exhaustion`: with every reply unparsable the loop
runs exactly 5 iterations and returns normally. -/
theorem c7_witness :
    stepN allNoneReplies max_attempts initState = Except.ok (Sum.inl (LoopSt.mk [] [] 5)) ∧
    generate_ideas allNoneReplies = Except.ok [] :=
  ⟨rfl, (c7_budget_exhaustion allNoneReplies (LoopSt.mk [] [] 5) rfl).2⟩

/-- Claim C8: every normally-terminating run of the loop executes at most
`max_attempts` iterations; the iteration count returned by `runLoop`
increases by exactly one per outer iteration regardless of which inner step
consumed it (generation parse failure, evaluation, or improvement parse
failure all fall through to the single count increment). -/
theorem c8_attempts_bounded (replies : Nat → Option Json) (out : List IdeaItem × Nat)
    (h : runLoop replies max_attempts initState = Except.ok out) :
    out.2 ≤ max_attempts :=
  runLoop_count_le replies max_attempts initState out.1 out.2 (by rw [← h])

/-- Witness for `c8_attempts_bounded` on the all-unparsable oracle. -/
theorem c8_witness :
    runLoop allNoneReplies max_attempts initState = Except.ok ([], 5) ∧
    (([], 5) : List IdeaItem × Nat).2 ≤ max_attempts :=
  ⟨rfl, c8_attempts_bounded allNoneReplies ([], 5) rfl⟩

/-- Claim C9: from any state satisfying the working-set invariant (accepted
items rated "Good enough", pending items never so rated), every item in the
accepted list appears in the result of any normally-terminating run — on the
convergence return and on the budget-exhaustion return alike — and the
result splits into an accepted part (all rated "Good enough") and a pending
part (none rated "Good enough"), so the improve-replace step never lets one
item occur in both parts. -/
theorem c9_accepted_persist (replies : Nat → Option Json) :
    ∀ (n : Nat) (s : LoopSt) (r : List IdeaItem) (c : Nat), GoodInv s →
      runLoop replies n s = Except.ok (r, c) →
      ∃ g p, r = g ++ p ∧ (∀ x ∈ s.good, x ∈ g) ∧
        (∀ x ∈ g, x.rating = some (Json.str ("Good enough"))) ∧
        (∀ x ∈ p, x.rating ≠ some (Json.str ("Good enough"))) := by
  intro n
  induction n with
  | zero =>
    intro s r c hinv h
    simp only [runLoop, Except.ok.injEq, Prod.mk.injEq] at h
    obtain ⟨hr, _⟩ := h
    exact ⟨s.good, s.pending, hr.symm, fun x hx => hx, hinv.1, hinv.2⟩
  | succ n ih =>
    intro s r c hinv h
    simp only [runLoop] at h
    cases hit : loopIter replies s with
    | error e => rw [hit] at h; simp at h
    | ok v =>
      rw [hit] at h
      cases v with
      | inr res =>
        simp only [Except.ok.injEq, Prod.mk.injEq] at h
        obtain ⟨hr, _⟩ := h
        subst hr
        have hres := (loopIter_inv replies s hinv).2 res hit
        exact ⟨res, [], (List.append_nil res).symm, hres.1, hres.2, by simp⟩
      | inl s' =>
        have h' : (match runLoop replies n s' with
            | Except.error e => Except.error e
            | Except.ok (r, c) => Except.ok (r, c + 1)) = Except.ok (r, c) := h
        cases hr : runLoop replies n s' with
        | error e => rw [hr] at h'; simp at h'
        | ok pr =>
          obtain ⟨r', c'⟩ := pr
          rw [hr] at h'
          simp only [Except.ok.injEq, Prod.mk.injEq] at h'
          obtain ⟨hre, _⟩ := h'
          subst hre
          have hstep := (loopIter_inv replies s hinv).1 s' hit
          obtain ⟨g, p, hgp, hmem, hgood, hpend⟩ := ih s' r' c' hstep.1 hr
          exact ⟨g, p, hgp, fun x hx => hmem x (hstep.2 x hx), hgood, hpend⟩

/-- Witness for `c9_accepted_persist` from the initial state on the
all-unparsable oracle. -/
theorem c9_witness : ∃ g p, ([] : List IdeaItem) = g ++ p ∧
    (∀ x ∈ initState.good, x ∈ g) ∧
    (∀ x ∈ g, x.rating = some (Json.str ("Good enough"))) ∧
    (∀ x ∈ p, x.rating ≠ some (Json.str ("Good enough"))) :=
  c9_accepted_persist allNoneReplies 5 initState [] 5
    ⟨fun x hx => absurd hx (List.not_mem_nil x), fun x hx => absurd hx (List.not_mem_nil x)⟩ rfl

/-- Claim C10: decoding the encoding of any non-empty batch yields a batch of
the same length with identical titles and descriptions in order, with the
rating not preserved (reset to `None`); and `parse_ideas` substitutes the
empty string for a missing title or description field instead of raising. -/
theorem c10_roundtrip :
    (∀ b : List IdeaItem, b ≠ [] →
      parse_ideas (Json.arr (ideas_to_json b)) = Except.ok (b.map resetRating)) ∧
    parse_ideas (Json.arr [Json.obj []]) =
      Except.ok [IdeaItem.mk (Json.str ("")) (Json.str ("")) none] :=
  ⟨fun b _ => parseLoop_ideas_to_json b, rfl⟩

/-- Witness for `c10_roundtrip` at a concrete two-item batch. -/
theorem c10_witness : ideas2 ≠ [] ∧
    parse_ideas (Json.arr (ideas_to_json ideas2)) = Except.ok (ideas2.map resetRating) :=
  ⟨List.cons_ne_nil _ _, c10_roundtrip.1 ideas2 (List.cons_ne_nil _ _)⟩
